import Mathlib

/-!
Verification of the Outlander copilot evaluation pipeline.

The definitions below are a shallow embedding of the Python sources:
* calculate_score      — prompt_flows/outlander_evaluation/calculate_score.py
* aggregate_results    — prompt_flows/outlander_evaluation/aggregate_results.py
* evaluate_metrics     — prompt_flows/outlander_evaluation/evaluate_metrics.py
* search_products      — prompt_flows/outlander_copilot/search_products.py
* run_batch_evaluation — prompt_flows/outlander_copilot/run_batch_evaluation.py
* the aggregation loop of scripts/run_copilot_and_evaluate.py (main)

Machine floats are modelled as exact rationals; the Python built-in round
(banker's rounding, ties to even) is modelled exactly on rationals.
External calls (the judge model, the search service, the copilot flow) are
modelled by an explicit outcome argument of type Except: ok carries the
value the call returned, error carries the text of the raised exception.
Printing, sleeping and file writes are side effects with no effect on the
returned data; the inter-item pause of run_batch_evaluation is modelled
separately as an explicit event trace.
-/

namespace Spec2Proof

/-- Python built-in round to the nearest integer, ties going to the even
integer (banker's rounding), modelled on exact rationals. -/
def pyRoundInt (x : ℚ) : ℤ :=
  let f : ℤ := ⌊x⌋
  let frac : ℚ := x - f
  if frac < 1/2 then f
  else if 1/2 < frac then f + 1
  else if f % 2 = 0 then f else f + 1

/-- Python round to 2 decimal places, as used throughout the repository. -/
def round2 (x : ℚ) : ℚ := (pyRoundInt (x * 100) : ℚ) / 100

/-! ## Scorer: calculate_score.py

The tool receives a JSON object (decoded here as an association list of
string keys to numeric values), collects the values of the five metric
keys that are present, and returns the rounded average, or 0.0 when no
metric key is present. -/

/-- A decoded JSON object with numeric fields: key/value association list. -/
abbrev ScoreDict := List (String × ℚ)

/-- Python membership/indexing on the decoded dict (first binding wins). -/
def lookupKey (d : ScoreDict) (k : String) : Option ℚ :=
  (d.find? (fun p => p.1 == k)).map (fun p => p.2)

/-- The metric key list of calculate_score.py. -/
def metrics : List String :=
  ["relevance", "accuracy", "completeness", "groundedness", "fluency"]

/-- The scores list built by the loop over metrics: values of present keys,
in metric order; absent keys are skipped. -/
def extractScores (d : ScoreDict) : List ℚ :=
  metrics.filterMap (lookupKey d)

/-- calculate_score (calculate_score.py): average of present metric values
rounded to 2 decimals, 0.0 when no metric is present.  (The Python tool
returns the number serialized to a string; serialization is dropped.) -/
def calculate_score (d : ScoreDict) : ℚ :=
  let scores := extractScores d
  if scores ≠ [] then round2 (scores.sum / scores.length) else 0

/-! ## Flow-level aggregation: aggregate_results.py

The tool receives the list of per-line overall scores (strings, already
converted to numbers here) and returns a dict whose values are all numeric;
it is modelled as an association list of string keys to rationals. -/

/-- aggregate_results (aggregate_results.py).  min/max are taken on a
non-empty list in the source; the getD 0 default is unreachable there. -/
def aggregate_results (scores : List ℚ) : List (String × ℚ) :=
  if scores = [] then
    [("average_score", 0), ("pass_rate", 0), ("total_cases", 0), ("passed_cases", 0)]
  else
    let average_score := round2 (scores.sum / scores.length)
    let pass_threshold : ℚ := 3.5
    let passed_cases := (scores.filter (fun s => pass_threshold ≤ s)).length
    let pass_rate := round2 ((passed_cases : ℚ) / scores.length * 100)
    let min_score := round2 ((scores.min?).getD 0)
    let max_score := round2 ((scores.max?).getD 0)
    [("average_score", average_score), ("pass_rate", pass_rate),
     ("total_cases", (scores.length : ℚ)), ("passed_cases", (passed_cases : ℚ)),
     ("min_score", min_score), ("max_score", max_score),
     ("pass_threshold", pass_threshold)]

/-! ## Script-level aggregation: run_copilot_and_evaluate.py (main)

For each test case, main obtains an overall score through
run_evaluation_flow, which catches every exception and returns overall
score 0.0 in that case.  Each item is modelled by its evaluation outcome:
ok carries the overall score the evaluation flow produced, error the text
of the exception run_evaluation_flow caught. -/

deriving instance DecidableEq for Except

/-- The overall score main receives from run_evaluation_flow: the flow's
score, or 0.0 when the flow raised (the except branch of
run_evaluation_flow). -/
def run_evaluation_score (o : Except String ℚ) : ℚ :=
  match o with
  | Except.ok s => s
  | Except.error _ => 0

/-- The per-item status recorded by main: success iff the overall score is
positive. -/
def itemStatus (s : ℚ) : String := if 0 < s then "success" else "failed"

/-- The summary fields of the output of main (run_copilot_and_evaluate.py).
pass_rate is the value computed at line 188, before the percent-string
formatting of the output dict. -/
structure MainSummary where
  total_questions : ℕ
  average_score : ℚ
  pass_rate : ℚ
  passed_cases : ℕ
  pass_threshold : ℚ
  statuses : List String
deriving DecidableEq

/-- The aggregation loop and summary statistics of main
(run_copilot_and_evaluate.py, lines 140–197). -/
def mainEvaluate (items : List (Except String ℚ)) : MainSummary :=
  let scores := items.map run_evaluation_score
  let total_score := scores.sum
  let avg_score := if items ≠ [] then total_score / (items.length : ℚ) else 0
  let passed := (scores.filter (fun s => 3.5 ≤ s)).length
  let pass_rate := if items ≠ [] then (passed : ℚ) / (items.length : ℚ) * 100 else 0
  { total_questions := items.length
    average_score := round2 avg_score
    pass_rate := pass_rate
    passed_cases := passed
    pass_threshold := 3.5
    statuses := scores.map itemStatus }

/-- The overall scores of the items whose evaluation succeeded. -/
def okScores (items : List (Except String ℚ)) : List ℚ :=
  items.filterMap (fun o =>
    match o with
    | Except.ok s => some s
    | Except.error _ => none)

/-- Modelled from the spec's words, for comparison with mainEvaluate: the
average taken only over successfully-scored items, errored items excluded
from both the sum and the divisor. -/
def specAverageScore (items : List (Except String ℚ)) : ℚ :=
  if okScores items ≠ [] then
    round2 ((okScores items).sum / ((okScores items).length : ℚ))
  else 0

/-! ## Batch evaluator: run_batch_evaluation.py

Each dataset row carries the question, the reference answer, and the
outcome of test_flow on that question (ok: the answer/context dict; error:
the text of the raised exception). -/

/-- The dict test_flow returns on success. -/
structure FlowResult where
  answer : String
  context : String
deriving DecidableEq

/-- One line of the evaluation dataset together with the behaviour of
test_flow on its question. -/
structure TestCase where
  chat_input : String
  truth : String
  outcome : Except String FlowResult
deriving DecidableEq

/-- One entry of the results list of run_batch_evaluation. -/
structure ItemResult where
  test_number : ℕ
  question : String
  expected_answer : String
  actual_answer : String
  context_retrieved : String
  status : String
deriving DecidableEq

/-- The summary dict of run_batch_evaluation; success_rate is the rational
value successful/total*100 before the percent-string formatting. -/
structure BatchSummary where
  total_questions : ℕ
  successful : ℕ
  failed : ℕ
  success_rate : ℚ
  results : List ItemResult
deriving DecidableEq

/-- Python division: raises ZeroDivisionError on a zero divisor. -/
def pyDiv (a b : ℚ) : Except String ℚ :=
  if b = 0 then Except.error "ZeroDivisionError: division by zero"
  else Except.ok (a / b)

/-- The for-loop of run_batch_evaluation, starting at test number i:
returns (results, successful, failed).  A success appends a status=success
record; a caught exception appends a status=error record whose
actual_answer embeds the error text, and the loop continues. -/
def evalLoop : ℕ → List TestCase → List ItemResult × ℕ × ℕ
  | _, [] => ([], 0, 0)
  | i, tc :: rest =>
    let out := evalLoop (i + 1) rest
    match tc.outcome with
    | Except.ok r =>
        ({ test_number := i, question := tc.chat_input,
           expected_answer := tc.truth, actual_answer := r.answer,
           context_retrieved := r.context, status := "success" } :: out.1,
         out.2.1 + 1, out.2.2)
    | Except.error e =>
        ({ test_number := i, question := tc.chat_input,
           expected_answer := tc.truth, actual_answer := "ERROR: " ++ e,
           context_retrieved := "", status := "error" } :: out.1,
         out.2.1, out.2.2 + 1)

/-- run_batch_evaluation (run_batch_evaluation.py): run the loop over the
dataset, then build the summary; computing success_rate divides by the
dataset length with Python semantics, so the empty dataset raises. -/
def run_batch_evaluation (tcs : List TestCase) : Except String BatchSummary :=
  let out := evalLoop 1 tcs
  match pyDiv (out.2.1 : ℚ) (tcs.length : ℚ) with
  | Except.error e => Except.error e
  | Except.ok r =>
      Except.ok
        { total_questions := tcs.length
          successful := out.2.1
          failed := out.2.2
          success_rate := r * 100
          results := out.1 }

/-- The observable events of the batch loop: processing of test number i,
and the sleep of a fixed number of seconds. -/
inductive BatchEvent where
  | item (i : ℕ)
  | pause (seconds : ℕ)
deriving DecidableEq

/-- The event trace of the loop of run_batch_evaluation with r test cases
remaining and the current one numbered i: each item is processed, and the
2-second sleep runs only when i < len(test_cases), i.e. when further items
remain. -/
def batchPauseTrace : ℕ → ℕ → List BatchEvent
  | _, 0 => []
  | i, r + 1 =>
      BatchEvent.item i ::
        (if r = 0 then [] else BatchEvent.pause 2 :: batchPauseTrace (i + 1) r)

/-! ## Retriever: search_products.py

A returned search document is modelled by its four selected fields, each
possibly absent (Python result.get with a default). The whole body runs
under one try/except, modelled by the outcome argument: ok carries the
result list of the search call, error the text of any raised exception. -/

/-- A search hit, projected to the selected fields. -/
structure SearchDoc where
  title : Option String
  content : Option String
  category : Option String
  price : Option String

/-- The formatting of one search hit, 1-based ordinal i: title line, then
category and price lines only when the field is non-empty, then the
content capped at 800 characters. -/
def formatProduct (i : ℕ) (d : SearchDoc) : String :=
  let title := d.title.getD "Unknown Product"
  let content := (d.content.getD "").take 800
  let category := d.category.getD ""
  let price := d.price.getD ""
  let base := "## Product " ++ toString i ++ ": " ++ title ++ "\n"
  let withCat := if category ≠ "" then base ++ "**Category:** " ++ category ++ "\n" else base
  let withPrice := if price ≠ "" then withCat ++ "**Price:** " ++ price ++ "\n" else withCat
  withPrice ++ "\n" ++ content ++ "\n"

/-- search_products (search_products.py): on any raised exception, return
the descriptive error string; on an empty result list, return the fixed
sentinel; otherwise the newline-joined formatted hits. -/
def search_products (outcome : Except String (List SearchDoc)) : String :=
  match outcome with
  | Except.error e => "Error searching products: " ++ e
  | Except.ok results =>
      let context := results.mapIdx (fun j d => formatProduct (j + 1) d)
      if context = [] then "No relevant product information found."
      else String.intercalate "\n" context

/-! ## Judge: evaluate_metrics.py

The parsed judge output is a JSON object whose values are numbers or
strings, modelled as an association list.  The outcome argument stands for
the guarded region of the try: ok carries the parsed JSON object of the
model response, error the text of any exception raised by the model call
or by parsing. -/

/-- A JSON value of the judge output: a number or a string. -/
inductive JVal where
  | num (q : ℚ)
  | str (s : String)
deriving DecidableEq

/-- A decoded JSON object of the judge. -/
abbrev JDict := List (String × JVal)

/-- Python dict indexing (first binding wins; pySet keeps bindings unique). -/
def jLookup (d : JDict) (k : String) : Option JVal :=
  (d.find? (fun p => p.1 == k)).map (fun p => p.2)

/-- Python dict assignment: replace the binding in place when the key is
present, append it otherwise. -/
def pySet (d : JDict) (k : String) (v : JVal) : JDict :=
  if d.any (fun p => p.1 == k) then
    d.map (fun p => if p.1 == k then (k, v) else p)
  else d ++ [(k, v)]

/-- The required field list of evaluate_metrics.py. -/
def required_fields : List String :=
  ["relevance", "accuracy", "completeness", "groundedness", "fluency"]

/-- One step of the defaulting loop: if the field is absent, set it to 3.0. -/
def defaultField (d : JDict) (f : String) : JDict :=
  if (jLookup d f).isSome then d else pySet d f (JVal.num 3)

/-- The truncation applied to the prediction before it is stored. -/
def truncatePrediction (prediction : String) : String :=
  if 200 < prediction.length then prediction.take 200 ++ "..." else prediction

/-- evaluate_metrics (evaluate_metrics.py), after the model call: on a
parsed output, default each absent required field to 3.0 and attach the
question/prediction metadata; on any exception, return the fixed default
dict with all five fields 3.0, a reasoning naming the failure, and the
error field.  (The tool serializes the dict with json.dumps; serialization
is dropped.) -/
def evaluate_metrics (question prediction : String)
    (callOutcome : Except String JDict) : JDict :=
  match callOutcome with
  | Except.ok evaluation =>
      let withDefaults := required_fields.foldl defaultField evaluation
      let d1 := pySet withDefaults "question" (JVal.str question)
      pySet d1 "prediction" (JVal.str (truncatePrediction prediction))
  | Except.error e =>
      [("relevance", JVal.num 3), ("accuracy", JVal.num 3),
       ("completeness", JVal.num 3), ("groundedness", JVal.num 3),
       ("fluency", JVal.num 3),
       ("reasoning", JVal.str ("Evaluation failed: " ++ e)),
       ("error", JVal.str e),
       ("question", JVal.str question),
       ("prediction", JVal.str (truncatePrediction prediction))]


/-- Concrete judge output used as witness input for the Scorer: all five
metrics present. -/
def exScoreDict : ScoreDict :=
  [("relevance", 4), ("accuracy", 5), ("completeness", 3),
   ("groundedness", 4), ("fluency", 4)]

/-- Concrete judge output with only two of the five metrics present. -/
def exPartialDict : ScoreDict := [("relevance", 4), ("fluency", 2)]

/-- A differently-shaped dict with the same present metric values. -/
def exPartialDict2 : ScoreDict :=
  [("fluency", 2), ("other_metric", 9), ("relevance", 4)]


/-- Concrete evaluation outcomes: one scored item, one raising item. -/
def exItems : List (Except String ℚ) := [Except.ok 4, Except.error "judge failed"]

/-- Concrete evaluation outcomes: two scored items around a raising one. -/
def exItems5 : List (Except String ℚ) :=
  [Except.ok 4, Except.error "service down", Except.ok 2]


/-- A concrete 2-row dataset: the first question answers, the second raises. -/
def exBatch : List TestCase :=
  [{ chat_input := "q one", truth := "a one",
     outcome := Except.ok { answer := "ans one", context := "ctx one" } },
   { chat_input := "q two", truth := "a two",
     outcome := Except.error "boom" }]


/-- A concrete parsed judge output in which only fluency is missing. -/
def exJudgeDict : JDict :=
  [("relevance", JVal.num 4), ("accuracy", JVal.num 4),
   ("completeness", JVal.num 4), ("groundedness", JVal.num 4),
   ("reasoning", JVal.str "looks good")]

end Spec2Proof

namespace Spec2Proof

theorem pyRoundInt_nonneg (x : ℚ) (hx : 0 ≤ x) : 0 ≤ pyRoundInt x := by
  have hf : (0 : ℤ) ≤ ⌊x⌋ := Int.floor_nonneg.mpr hx
  unfold pyRoundInt
  dsimp only
  split
  · exact hf
  · split
    · omega
    · split
      · exact hf
      · omega

theorem pyRoundInt_le (x : ℚ) (B : ℤ) (hx : x ≤ B) : pyRoundInt x ≤ B := by
  have hf : ⌊x⌋ ≤ B := by
    have := Int.floor_le_floor hx
    simpa using this
  unfold pyRoundInt
  dsimp only
  split
  · exact hf
  · rename_i h1
    push_neg at h1
    have hlt : ⌊x⌋ < B := by
      by_contra hcon
      push_neg at hcon
      have hfx : (⌊x⌋ : ℚ) ≤ x := Int.floor_le x
      have hxB : x ≤ (⌊x⌋ : ℚ) := le_trans hx (by exact_mod_cast hcon)
      have hxeq : x = (⌊x⌋ : ℚ) := le_antisymm hxB hfx
      rw [hxeq] at h1
      simp at h1
      linarith
    split
    · omega
    · split
      · exact hf
      · omega

theorem round2_nonneg (x : ℚ) (hx : 0 ≤ x) : 0 ≤ round2 x := by
  unfold round2
  have h : (0 : ℤ) ≤ pyRoundInt (x * 100) :=
    pyRoundInt_nonneg _ (by positivity)
  positivity

theorem round2_le_five (x : ℚ) (hx : x ≤ 5) : round2 x ≤ 5 := by
  unfold round2
  have h : pyRoundInt (x * 100) ≤ 500 :=
    pyRoundInt_le _ 500 (by push_cast; linarith)
  have h2 : ((pyRoundInt (x * 100) : ℚ)) ≤ 500 := by exact_mod_cast h
  linarith

theorem pyRoundInt_intCast (n : ℤ) : pyRoundInt (n : ℚ) = n := by
  unfold pyRoundInt
  simp [Int.floor_intCast]

theorem round2_eq_of_mul (x : ℚ) (n : ℤ) (h : x * 100 = (n : ℚ)) :
    round2 x = (n : ℚ) / 100 := by
  unfold round2
  rw [h, pyRoundInt_intCast]

/-- C4: when all five metric fields are present with values in [0,5], the
Scorer returns the arithmetic mean of the five values rounded to 2
decimals, which lies in [0,5]; and with zero metric fields present it
returns 0.0. -/
theorem claim4_scorer_mean (d e : ScoreDict) (v1 v2 v3 v4 v5 : ℚ)
    (h1 : lookupKey d "relevance" = some v1)
    (h2 : lookupKey d "accuracy" = some v2)
    (h3 : lookupKey d "completeness" = some v3)
    (h4 : lookupKey d "groundedness" = some v4)
    (h5 : lookupKey d "fluency" = some v5)
    (hb1 : 0 ≤ v1 ∧ v1 ≤ 5) (hb2 : 0 ≤ v2 ∧ v2 ≤ 5) (hb3 : 0 ≤ v3 ∧ v3 ≤ 5)
    (hb4 : 0 ≤ v4 ∧ v4 ≤ 5) (hb5 : 0 ≤ v5 ∧ v5 ≤ 5)
    (he : extractScores e = []) :
    calculate_score d = round2 ((v1 + v2 + v3 + v4 + v5) / 5) ∧
    0 ≤ calculate_score d ∧ calculate_score d ≤ 5 ∧
    calculate_score e = 0 := by
  have hs : extractScores d = [v1, v2, v3, v4, v5] := by
    simp [extractScores, metrics, List.filterMap_cons, h1, h2, h3, h4, h5]
  have hval : calculate_score d = round2 ((v1 + v2 + v3 + v4 + v5) / 5) := by
    rw [calculate_score]
    simp [hs]
    ring_nf
  obtain ⟨a1, b1⟩ := hb1
  obtain ⟨a2, b2⟩ := hb2
  obtain ⟨a3, b3⟩ := hb3
  obtain ⟨a4, b4⟩ := hb4
  obtain ⟨a5, b5⟩ := hb5
  refine ⟨hval, ?_, ?_, ?_⟩
  · rw [hval]
    exact round2_nonneg _ (by linarith)
  · rw [hval]
    exact round2_le_five _ (by linarith)
  · rw [calculate_score]
    simp [he]

theorem claim4_scorer_witness :
    calculate_score exScoreDict = round2 ((4 + 5 + 3 + 4 + 4) / 5) ∧
    0 ≤ calculate_score exScoreDict ∧ calculate_score exScoreDict ≤ 5 ∧
    calculate_score [] = 0 :=
  claim4_scorer_mean exScoreDict [] 4 5 3 4 4 (by decide) (by decide) (by decide)
    (by decide) (by decide) (by norm_num) (by norm_num) (by norm_num)
    (by norm_num) (by norm_num) (by decide)

/-- C10: with a non-empty subset of the five metric fields present, the
Scorer returns the mean of exactly the present values rounded to 2
decimals; absent metrics are skipped, not defaulted, so any two inputs
with the same present values give the same result. -/
theorem claim10_scorer_subset (d e : ScoreDict) (vs : List ℚ)
    (hd : extractScores d = vs) (he : extractScores e = vs) (hne : vs ≠ []) :
    calculate_score d = round2 (vs.sum / (vs.length : ℚ)) ∧
    calculate_score e = calculate_score d := by
  constructor
  · rw [calculate_score]
    simp [hd, hne]
  · rw [calculate_score, calculate_score]
    simp [hd, he]

theorem claim10_scorer_witness :
    calculate_score exPartialDict
        = round2 (([4, 2] : List ℚ).sum / ((([4, 2] : List ℚ).length : ℕ) : ℚ)) ∧
    calculate_score exPartialDict2 = calculate_score exPartialDict :=
  claim10_scorer_subset exPartialDict exPartialDict2 [4, 2]
    (by decide) (by decide) (by decide)

end Spec2Proof

namespace Spec2Proof

theorem okScores_ok (s : ℚ) (l : List (Except String ℚ)) :
    okScores (Except.ok s :: l) = s :: okScores l := by
  simp [okScores]

theorem okScores_error (e : String) (l : List (Except String ℚ)) :
    okScores (Except.error e :: l) = okScores l := by
  simp [okScores]

theorem map_run_evaluation_sum (items : List (Except String ℚ)) :
    (items.map run_evaluation_score).sum = (okScores items).sum := by
  induction items with
  | nil => rfl
  | cons a l ih =>
    cases a with
    | ok s => simp [run_evaluation_score, okScores_ok, ih]
    | error e => simp [run_evaluation_score, okScores_error, ih]

theorem map_run_evaluation_passed (items : List (Except String ℚ)) :
    ((items.map run_evaluation_score).filter (fun s => 3.5 ≤ s)).length
      = ((okScores items).filter (fun s => 3.5 ≤ s)).length := by
  induction items with
  | nil => rfl
  | cons a l ih =>
    cases a with
    | ok s =>
      by_cases hs : (3.5 : ℚ) ≤ s
      · simp [run_evaluation_score, okScores_ok, List.filter_cons, hs, ih]
      · simp [run_evaluation_score, okScores_ok, List.filter_cons, hs, ih]
    | error e =>
      have h0 : ¬ ((3.5 : ℚ) ≤ 0) := by norm_num
      simp [run_evaluation_score, okScores_error, List.filter_cons, h0, ih]

theorem mainEvaluate_total (items : List (Except String ℚ)) :
    (mainEvaluate items).total_questions = items.length := by
  rw [mainEvaluate]

theorem mainEvaluate_average (items : List (Except String ℚ)) (h : items ≠ []) :
    (mainEvaluate items).average_score
      = round2 ((okScores items).sum / (items.length : ℚ)) := by
  rw [mainEvaluate]
  simp [h, map_run_evaluation_sum]

theorem mainEvaluate_passed (items : List (Except String ℚ)) :
    (mainEvaluate items).passed_cases
      = ((okScores items).filter (fun s => 3.5 ≤ s)).length := by
  rw [mainEvaluate]
  simp [map_run_evaluation_passed]

theorem mainEvaluate_passrate (items : List (Except String ℚ)) (h : items ≠ []) :
    (mainEvaluate items).pass_rate
      = ((mainEvaluate items).passed_cases : ℚ) / (items.length : ℚ) * 100 := by
  rw [mainEvaluate]
  simp [h]

theorem mainEvaluate_threshold (items : List (Except String ℚ)) :
    (mainEvaluate items).pass_threshold = 3.5 := by
  rw [mainEvaluate]

theorem aggregate_results_average (scores : List ℚ) (h : scores ≠ []) :
    lookupKey (aggregate_results scores) "average_score"
      = some (round2 (scores.sum / (scores.length : ℚ))) := by
  rw [aggregate_results]
  simp [h, lookupKey]

theorem aggregate_results_passed (scores : List ℚ) (h : scores ≠ []) :
    lookupKey (aggregate_results scores) "passed_cases"
      = some (((scores.filter (fun s => 3.5 ≤ s)).length : ℚ)) := by
  rw [aggregate_results]
  simp [h, lookupKey]

theorem aggregate_results_passrate (scores : List ℚ) (h : scores ≠ []) :
    lookupKey (aggregate_results scores) "pass_rate"
      = some (round2 (((scores.filter (fun s => 3.5 ≤ s)).length : ℚ)
          / (scores.length : ℚ) * 100)) := by
  rw [aggregate_results]
  simp [h, lookupKey]

theorem aggregate_results_threshold (scores : List ℚ) (h : scores ≠ []) :
    lookupKey (aggregate_results scores) "pass_threshold" = some 3.5 := by
  rw [aggregate_results]
  simp [h, lookupKey]

end Spec2Proof

namespace Spec2Proof

/-- C1 counterexample: for the dataset [ok 4, error], main's average_score
is round2(4/2) = 2.0, while the claimed average over only the
successfully-scored items is 4.0: the errored item contributes 0.0 to the
sum and stays in the divisor. -/
theorem claim1_average_counterexample :
    (mainEvaluate exItems).average_score = 2 ∧
    specAverageScore exItems = 4 ∧
    (mainEvaluate exItems).average_score ≠ specAverageScore exItems := by
  have hok : okScores exItems = [4] := by decide
  have h2 : (mainEvaluate exItems).average_score = 2 := by
    have ha := mainEvaluate_average exItems (by decide)
    rw [hok] at ha
    norm_num [exItems] at ha
    simp only [exItems]
    rw [ha, round2_eq_of_mul _ 200 (by norm_num)]
    norm_num
  have h4 : specAverageScore exItems = 4 := by
    have ha : specAverageScore exItems
        = round2 ((okScores exItems).sum / ((okScores exItems).length : ℚ)) := by
      rw [specAverageScore]
      rw [if_pos]
      rw [hok]
      exact List.cons_ne_nil 4 []
    rw [hok] at ha
    norm_num at ha
    rw [ha, round2_eq_of_mul _ 400 (by norm_num)]
    norm_num
  exact ⟨h2, h4, by rw [h2, h4]; norm_num⟩

/-- C1 amended: main's average_score is round2 of the sum of the
successfully-scored items' scores divided by the FULL dataset size (error
items contribute score 0.0 and stay in the divisor); and the flow-level
aggregator averages over every score it is handed, with no exclusion. -/
theorem claim1_average_amended (items : List (Except String ℚ)) (h : items ≠ []) :
    (mainEvaluate items).average_score
        = round2 ((okScores items).sum / (items.length : ℚ)) ∧
    ∀ scores : List ℚ, scores ≠ [] →
      lookupKey (aggregate_results scores) "average_score"
        = some (round2 (scores.sum / (scores.length : ℚ))) :=
  ⟨mainEvaluate_average items h,
   fun scores hs => aggregate_results_average scores hs⟩

theorem claim1_average_witness :
    ((mainEvaluate exItems).average_score
        = round2 ((okScores exItems).sum / (exItems.length : ℚ)) ∧
    ∀ scores : List ℚ, scores ≠ [] →
      lookupKey (aggregate_results scores) "average_score"
        = some (round2 (scores.sum / (scores.length : ℚ)))) :=
  claim1_average_amended exItems (by decide)

/-- C5: an item is counted as passed iff its overall score is at least the
3.5 threshold (so errored items, scored 0.0, are never passed);
pass_rate = passed / total * 100 with every item in the denominator; the
flow-level aggregator applies the same rule with the same threshold. -/
theorem claim5_pass_rule (items : List (Except String ℚ)) (h : items ≠ []) :
    (mainEvaluate items).total_questions = items.length ∧
    (mainEvaluate items).passed_cases
        = ((okScores items).filter (fun s => 3.5 ≤ s)).length ∧
    (mainEvaluate items).pass_rate
        = ((mainEvaluate items).passed_cases : ℚ) / (items.length : ℚ) * 100 ∧
    (mainEvaluate items).pass_threshold = 3.5 ∧
    ∀ scores : List ℚ, scores ≠ [] →
      lookupKey (aggregate_results scores) "passed_cases"
          = some (((scores.filter (fun s => 3.5 ≤ s)).length : ℚ)) ∧
      lookupKey (aggregate_results scores) "pass_rate"
          = some (round2 (((scores.filter (fun s => 3.5 ≤ s)).length : ℚ)
              / (scores.length : ℚ) * 100)) ∧
      lookupKey (aggregate_results scores) "pass_threshold" = some 3.5 :=
  ⟨mainEvaluate_total items, mainEvaluate_passed items,
   mainEvaluate_passrate items h, mainEvaluate_threshold items,
   fun scores hs =>
     ⟨aggregate_results_passed scores hs, aggregate_results_passrate scores hs,
      aggregate_results_threshold scores hs⟩⟩

theorem claim5_pass_witness :
    ((mainEvaluate exItems5).total_questions = exItems5.length ∧
    (mainEvaluate exItems5).passed_cases
        = ((okScores exItems5).filter (fun s => 3.5 ≤ s)).length ∧
    (mainEvaluate exItems5).pass_rate
        = ((mainEvaluate exItems5).passed_cases : ℚ) / (exItems5.length : ℚ) * 100 ∧
    (mainEvaluate exItems5).pass_threshold = 3.5 ∧
    ∀ scores : List ℚ, scores ≠ [] →
      lookupKey (aggregate_results scores) "passed_cases"
          = some (((scores.filter (fun s => 3.5 ≤ s)).length : ℚ)) ∧
      lookupKey (aggregate_results scores) "pass_rate"
          = some (round2 (((scores.filter (fun s => 3.5 ≤ s)).length : ℚ)
              / (scores.length : ℚ) * 100)) ∧
      lookupKey (aggregate_results scores) "pass_threshold" = some 3.5) :=
  claim5_pass_rule exItems5 (by decide)

end Spec2Proof

namespace Spec2Proof

theorem evalLoop_length (tcs : List TestCase) (i : ℕ) :
    (evalLoop i tcs).1.length = tcs.length := by
  induction tcs generalizing i with
  | nil => rfl
  | cons tc rest ih =>
    cases h : tc.outcome with
    | ok r => simp [evalLoop, h, ih]
    | error e => simp [evalLoop, h, ih]

theorem evalLoop_successful (tcs : List TestCase) (i : ℕ) :
    (evalLoop i tcs).2.1 = tcs.countP (fun t => t.outcome.isOk) := by
  induction tcs generalizing i with
  | nil => rfl
  | cons tc rest ih =>
    cases h : tc.outcome with
    | ok r => simp [evalLoop, h, ih, List.countP_cons, Except.isOk, Except.toBool]
    | error e => simp [evalLoop, h, ih, List.countP_cons, Except.isOk, Except.toBool]

theorem evalLoop_failed (tcs : List TestCase) (i : ℕ) :
    (evalLoop i tcs).2.2 = tcs.countP (fun t => !t.outcome.isOk) := by
  induction tcs generalizing i with
  | nil => rfl
  | cons tc rest ih =>
    cases h : tc.outcome with
    | ok r => simp [evalLoop, h, ih, List.countP_cons, Except.isOk, Except.toBool]
    | error e => simp [evalLoop, h, ih, List.countP_cons, Except.isOk, Except.toBool]

theorem countP_isOk_add (tcs : List TestCase) :
    tcs.countP (fun t => t.outcome.isOk)
      + tcs.countP (fun t => !t.outcome.isOk) = tcs.length := by
  induction tcs with
  | nil => rfl
  | cons a l ih =>
    simp only [List.countP_cons, List.length_cons]
    cases hb : a.outcome.isOk
    · simp [hb]
      omega
    · simp [hb]
      omega

theorem evalLoop_error_at (tcs : List TestCase) (i j : ℕ) (tc : TestCase)
    (e : String) (hj : tcs[j]? = some tc) (he : tc.outcome = Except.error e) :
    (evalLoop i tcs).1[j]? = some
      { test_number := i + j, question := tc.chat_input,
        expected_answer := tc.truth, actual_answer := "ERROR: " ++ e,
        context_retrieved := "", status := "error" } := by
  induction tcs generalizing i j with
  | nil => simp at hj
  | cons a rest ih =>
    cases j with
    | zero =>
      simp at hj
      subst hj
      simp [evalLoop, he]
    | succ j2 =>
      simp at hj
      have harith : i + 1 + j2 = i + (j2 + 1) := by omega
      cases h : a.outcome with
      | ok r =>
        have hrec := ih (i + 1) j2 hj
        rw [harith] at hrec
        simp [evalLoop, h, hrec]
      | error e2 =>
        have hrec := ih (i + 1) j2 hj
        rw [harith] at hrec
        simp [evalLoop, h, hrec]

theorem run_batch_ok (tcs : List TestCase) (h : tcs ≠ []) :
    run_batch_evaluation tcs = Except.ok
      { total_questions := tcs.length
        successful := (evalLoop 1 tcs).2.1
        failed := (evalLoop 1 tcs).2.2
        success_rate := ((evalLoop 1 tcs).2.1 : ℚ) / (tcs.length : ℚ) * 100
        results := (evalLoop 1 tcs).1 } := by
  have hlen : ((tcs.length : ℕ) : ℚ) ≠ 0 := by
    have h0 : tcs.length ≠ 0 := by
      cases tcs with
      | nil => exact absurd rfl h
      | cons a l => simp
    exact_mod_cast h0
  rw [run_batch_evaluation]
  rw [pyDiv, if_neg hlen]

/-- C3: for every non-empty dataset, the batch evaluator records every item
(a raising item gets a status=error record whose actual_answer embeds the
error text, and the run continues), and the summary satisfies total = N,
failed = M (the number of raising items), successful = N - M, and
successful + failed = total. -/
theorem claim3_batch_totals (tcs : List TestCase) (h : tcs ≠ []) :
    ∃ s, run_batch_evaluation tcs = Except.ok s ∧
      s.total_questions = tcs.length ∧
      s.failed = tcs.countP (fun t => !t.outcome.isOk) ∧
      s.successful = tcs.length - s.failed ∧
      s.successful + s.failed = s.total_questions ∧
      s.results.length = tcs.length ∧
      ∀ (j : ℕ) (tc : TestCase) (e : String), tcs[j]? = some tc → tc.outcome = Except.error e →
        s.results[j]? = some
          { test_number := j + 1, question := tc.chat_input,
            expected_answer := tc.truth, actual_answer := "ERROR: " ++ e,
            context_retrieved := "", status := "error" } := by
  have hsum := countP_isOk_add tcs
  refine ⟨_, run_batch_ok tcs h, rfl, evalLoop_failed tcs 1, ?_, ?_,
    evalLoop_length tcs 1, ?_⟩
  · show (evalLoop 1 tcs).2.1 = tcs.length - (evalLoop 1 tcs).2.2
    rw [evalLoop_successful tcs 1, evalLoop_failed tcs 1]
    omega
  · show (evalLoop 1 tcs).2.1 + (evalLoop 1 tcs).2.2 = tcs.length
    rw [evalLoop_successful tcs 1, evalLoop_failed tcs 1]
    omega
  · intro j tc e hj he
    have := evalLoop_error_at tcs 1 j tc e hj he
    show (evalLoop 1 tcs).1[j]? = _
    rw [this]
    have : 1 + j = j + 1 := by omega
    rw [this]

theorem claim3_batch_witness :
    ∃ s, run_batch_evaluation exBatch = Except.ok s ∧
      s.total_questions = exBatch.length ∧
      s.failed = exBatch.countP (fun t => !t.outcome.isOk) ∧
      s.successful = exBatch.length - s.failed ∧
      s.successful + s.failed = s.total_questions ∧
      s.results.length = exBatch.length ∧
      ∀ (j : ℕ) (tc : TestCase) (e : String), exBatch[j]? = some tc → tc.outcome = Except.error e →
        s.results[j]? = some
          { test_number := j + 1, question := tc.chat_input,
            expected_answer := tc.truth, actual_answer := "ERROR: " ++ e,
            context_retrieved := "", status := "error" } :=
  claim3_batch_totals exBatch (by decide)

/-- C9: on the empty dataset, computing the summary's success_rate divides
by the dataset length and raises ZeroDivisionError instead of producing a
summary; every non-empty dataset produces one. -/
theorem claim9_empty_dataset :
    run_batch_evaluation ([] : List TestCase)
        = Except.error "ZeroDivisionError: division by zero" ∧
    ∀ tcs : List TestCase, tcs ≠ [] →
      (run_batch_evaluation tcs).isOk = true := by
  constructor
  · rw [run_batch_evaluation]
    simp [evalLoop, pyDiv]
  · intro tcs h
    rw [run_batch_ok tcs h]
    rfl

end Spec2Proof

namespace Spec2Proof

/-- C6 counterexample: for a dataset of one item the loop's trace is the
bare item with no pause at all, so the pause step does not follow every
item of the dataset. -/
theorem claim6_pause_counterexample :
    batchPauseTrace 1 1 = [BatchEvent.item 1] ∧
    ∀ ev ∈ batchPauseTrace 1 1, ev ≠ BatchEvent.pause 2 := by
  constructor
  · rfl
  · intro ev hev
    simp [batchPauseTrace] at hev
    simp [hev]

/-- C6 amended: the 2-second pause runs between consecutive items — it
follows every item except the last, and no pause follows the final item:
the trace is exactly the items interspersed with single pauses. -/
theorem claim6_pause_amended (i n : ℕ) :
    batchPauseTrace i n
      = List.intersperse (BatchEvent.pause 2)
          ((List.range' i n).map BatchEvent.item) := by
  induction n generalizing i with
  | zero => rfl
  | succ r ih =>
    cases r with
    | zero => simp [batchPauseTrace, List.range']
    | succ r2 =>
      rw [batchPauseTrace]
      rw [if_neg (by omega : ¬ r2 + 1 = 0)]
      rw [ih (i + 1)]
      rw [List.range']
      rw [List.range']
      simp [List.intersperse]

/-- C7: an empty search result set yields the fixed sentinel context
string, which is not the empty string. -/
theorem claim7_empty_sentinel :
    search_products (Except.ok []) = "No relevant product information found." ∧
    search_products (Except.ok []) ≠ "" := by
  constructor
  · rfl
  · decide

/-- C8: any exception of the search body is caught and converted into the
descriptive error string returned as the context, so the caller receives a
string for every outcome. -/
theorem claim8_retriever_error (e : String) :
    search_products (Except.error e) = "Error searching products: " ++ e := rfl

end Spec2Proof

namespace Spec2Proof

theorem bool_eq_false_of_not (b : Bool) (h : ¬ b = true) : b = false := by
  cases b
  · rfl
  · exact absurd rfl h

theorem jLookup_cons (q : String × JVal) (rest : JDict) (f : String) :
    jLookup (q :: rest) f
      = if (q.1 == f) = true then some q.2 else jLookup rest f := by
  simp only [jLookup, List.find?_cons]
  cases hq : q.1 == f <;> simp [hq, jLookup]

theorem jLookup_map_pySet (d : JDict) (k f : String) (v : JVal)
    (h : (k == f) = false) :
    jLookup (d.map (fun p => if p.1 == k then (k, v) else p)) f
      = jLookup d f := by
  induction d with
  | nil => rfl
  | cons p rest ih =>
    rw [List.map_cons]
    by_cases hp : (p.1 == k) = true
    · have hpk : p.1 = k := by simpa using hp
      have hpf : ¬ ((p.1 == f) = true) := by rw [hpk]; simp [h]
      have hkf : ¬ (((k, v).1 == f) = true) := by simp [h]
      rw [if_pos hp, jLookup_cons, jLookup_cons, if_neg hkf, if_neg hpf]
      exact ih
    · rw [if_neg hp, jLookup_cons, jLookup_cons]
      by_cases hpf : (p.1 == f) = true
      · simp only [if_pos hpf]
      · simp only [if_neg hpf]
        exact ih

theorem jLookup_append_single (d : JDict) (k f : String) (v : JVal)
    (h : (k == f) = false) :
    jLookup (d ++ [(k, v)]) f = jLookup d f := by
  induction d with
  | nil =>
    rw [List.nil_append, jLookup_cons, if_neg (by simp [h])]
  | cons p rest ih =>
    rw [List.cons_append, jLookup_cons, jLookup_cons]
    by_cases hpf : (p.1 == f) = true
    · simp only [if_pos hpf]
    · simp only [if_neg hpf]
      exact ih

theorem jLookup_map_self (d : JDict) (k : String) (v : JVal)
    (hany : (d.any (fun q => q.1 == k)) = true) :
    jLookup (d.map (fun p => if p.1 == k then (k, v) else p)) k = some v := by
  induction d with
  | nil => simp at hany
  | cons p rest ih =>
    rw [List.map_cons]
    by_cases hp : (p.1 == k) = true
    · rw [if_pos hp, jLookup_cons, if_pos (by simp : (((k, v).1 == k) = true))]
    · rw [if_neg hp, jLookup_cons, if_neg hp]
      apply ih
      rw [List.any_cons, bool_eq_false_of_not _ hp, Bool.false_or] at hany
      exact hany

theorem jLookup_append_self (d : JDict) (k : String) (v : JVal)
    (hany : (d.any (fun q => q.1 == k)) = false) :
    jLookup (d ++ [(k, v)]) k = some v := by
  induction d with
  | nil =>
    rw [List.nil_append, jLookup_cons, if_pos (by simp : (((k, v).1 == k) = true))]
  | cons p rest ih =>
    by_cases hp : (p.1 == k) = true
    · exfalso
      rw [List.any_cons, hp, Bool.true_or] at hany
      exact Bool.noConfusion hany
    · rw [List.cons_append, jLookup_cons, if_neg hp]
      apply ih
      rw [List.any_cons, bool_eq_false_of_not _ hp, Bool.false_or] at hany
      exact hany

theorem jLookup_pySet_self (d : JDict) (k : String) (v : JVal) :
    jLookup (pySet d k v) k = some v := by
  rw [pySet]
  by_cases hany : ((d.any (fun q => q.1 == k)) = true)
  · rw [if_pos hany]
    exact jLookup_map_self d k v hany
  · rw [if_neg hany]
    exact jLookup_append_self d k v (bool_eq_false_of_not _ hany)

theorem jLookup_pySet_ne (d : JDict) (k f : String) (v : JVal) (h : f ≠ k) :
    jLookup (pySet d k v) f = jLookup d f := by
  have hkf : (k == f) = false := by
    apply bool_eq_false_of_not
    intro hc
    exact (Ne.symm h) (by simpa using hc)
  rw [pySet]
  by_cases hany : ((d.any (fun q => q.1 == k)) = true)
  · rw [if_pos hany]
    exact jLookup_map_pySet d k f v hkf
  · rw [if_neg hany]
    exact jLookup_append_single d k f v hkf

theorem jLookup_defaultField_ne (d : JDict) (g f : String) (h : f ≠ g) :
    jLookup (defaultField d g) f = jLookup d f := by
  rw [defaultField]
  split
  · rfl
  · exact jLookup_pySet_ne d g f _ h

theorem jLookup_defaultField_self (d : JDict) (f : String) :
    jLookup (defaultField d f) f = some ((jLookup d f).getD (JVal.num 3)) := by
  rw [defaultField]
  cases h : jLookup d f with
  | some v => simp [h]
  | none => simp [h, jLookup_pySet_self]

theorem jLookup_foldl_some (L : List String) (f : String) (v : JVal) :
    ∀ d : JDict, jLookup d f = some v →
      jLookup (L.foldl defaultField d) f = some v := by
  induction L with
  | nil =>
    intro d h
    simpa using h
  | cons g L2 ih =>
    intro d h
    rw [List.foldl_cons]
    apply ih
    by_cases hgf : g = f
    · subst hgf
      rw [defaultField]
      simp [h]
    · rw [jLookup_defaultField_ne d g f (fun hh => hgf hh.symm)]
      exact h

theorem jLookup_foldl_defaultField (L : List String) (f : String) :
    ∀ d : JDict, f ∈ L →
      jLookup (L.foldl defaultField d) f
        = some ((jLookup d f).getD (JVal.num 3)) := by
  induction L with
  | nil =>
    intro d hf
    simp at hf
  | cons g L2 ih =>
    intro d hf
    rw [List.foldl_cons]
    by_cases hgf : g = f
    · subst hgf
      exact jLookup_foldl_some L2 g _ (defaultField d g)
        (jLookup_defaultField_self d g)
    · have hf2 : f ∈ L2 := by
        rcases List.mem_cons.mp hf with h1 | h2
        · exact absurd h1.symm hgf
        · exact h2
      rw [ih (defaultField d g) hf2]
      rw [jLookup_defaultField_ne d g f (fun hh => hgf hh.symm)]

/-- C2 counterexample: for a parsed judge output in which only fluency is
missing, the result defaults fluency to 3.0 but carries NO error field,
and reasoning is the model's own text, not a failure message: the
distinguishing error field is absent in the missing-field case. -/
theorem claim2_judge_counterexample :
    jLookup (evaluate_metrics "q" "p" (Except.ok exJudgeDict)) "fluency"
        = some (JVal.num 3) ∧
    jLookup (evaluate_metrics "q" "p" (Except.ok exJudgeDict)) "error" = none ∧
    jLookup (evaluate_metrics "q" "p" (Except.ok exJudgeDict)) "reasoning"
        = some (JVal.str "looks good") := by decide

/-- C2 amended: on an exception (the model call fails or the output does
not parse) the Judge returns all five fields = 3.0 with a reasoning naming
the failure and a distinguishing error field; on a parsed output each
missing required field is defaulted to 3.0 and each present one kept (no
error field is added then), so every caller-visible result has all five
fields populated. -/
theorem claim2_judge_amended (question prediction e : String) (d : JDict) :
    (∀ f ∈ required_fields,
        jLookup (evaluate_metrics question prediction (Except.error e)) f
          = some (JVal.num 3)) ∧
    jLookup (evaluate_metrics question prediction (Except.error e)) "reasoning"
        = some (JVal.str ("Evaluation failed: " ++ e)) ∧
    jLookup (evaluate_metrics question prediction (Except.error e)) "error"
        = some (JVal.str e) ∧
    ∀ f ∈ required_fields,
        jLookup (evaluate_metrics question prediction (Except.ok d)) f
          = some ((jLookup d f).getD (JVal.num 3)) := by
  refine ⟨?_, ?_, ?_, ?_⟩
  · intro f hf
    fin_cases hf <;> simp [evaluate_metrics, jLookup]
  · simp [evaluate_metrics, jLookup]
  · simp [evaluate_metrics, jLookup]
  · intro f hf
    have hq : f ≠ "question" ∧ f ≠ "prediction" := by
      fin_cases hf <;> exact ⟨by decide, by decide⟩
    simp only [evaluate_metrics]
    rw [jLookup_pySet_ne _ _ _ _ hq.2, jLookup_pySet_ne _ _ _ _ hq.1]
    exact jLookup_foldl_defaultField required_fields f d hf

end Spec2Proof
